import Mathlib

/-!
Verification development for the dual-source weather-ingestion engine
(tempest-exporter).  Go `float64` values are modelled by `F64`: either the
NaN sentinel, a signed infinity, or a finite value carried as a real
number.  Raw JSON-decoded Go `any` values are modelled by `GoVal`.
All definitions are transcribed from the Go source; theorems check the
specification's claims against them.
-/

open scoped Classical

/-- Model of a Go `float64`: NaN sentinel, signed infinity (`inf true` is
positive infinity), or a finite value idealised as a real number. -/
inductive F64 where
  | nan : F64
  | inf : Bool → F64
  | fin : ℝ → F64

namespace F64

/-- `math.IsNaN`. -/
def isNan : F64 → Bool
  | nan => true
  | _ => false

/-- `math.IsInf(x, 0)`. -/
def isInf : F64 → Bool
  | inf _ => true
  | _ => false

/-- IEEE-style strict order: any comparison with NaN is false. -/
def Lt : F64 → F64 → Prop
  | nan, _ => False
  | _, nan => False
  | inf s, inf t => s = false ∧ t = true
  | inf s, fin _ => s = false
  | fin _, inf t => t = true
  | fin x, fin y => x < y

/-- IEEE-style non-strict order: any comparison with NaN is false. -/
def Le : F64 → F64 → Prop
  | nan, _ => False
  | _, nan => False
  | inf s, inf t => s = t ∨ (s = false ∧ t = true)
  | inf s, fin _ => s = false
  | fin _, inf t => t = true
  | fin x, fin y => x ≤ y

/-- Go conversion `int64(x)` (truncation toward zero) for the in-range
finite case; the out-of-range cases are rejected before this is used. -/
noncomputable def trunc : F64 → ℤ
  | fin x => if 0 ≤ x then ⌊x⌋ else ⌈x⌉
  | _ => 0

end F64

/-- Model of a JSON-decoded Go `any` value as produced by
`encoding/json`: `nil`, a `float64`, a `json.Number` (kept as its raw
character sequence), a `string`, a `bool`, or any other dynamic type
(arrays, objects, ...), which the codec treats uniformly. -/
inductive GoVal where
  | vnil : GoVal
  | vfloat : F64 → GoVal
  | vnumber : List Char → GoVal
  | vstring : List Char → GoVal
  | vbool : Bool → GoVal
  | vother : GoVal

/-- Numeric value of a decimal digit, `none` otherwise. -/
def digitVal (c : Char) : Option ℕ :=
  if '0' ≤ c ∧ c ≤ '9' then some (c.toNat - '0'.toNat) else none

/-- Reads a nonempty all-digit sequence as a natural number. -/
def digitsToNat : List Char → Option ℕ
  | [] => none
  | [c] => digitVal c
  | c :: rest => do
      let d ← digitVal c
      let r ← digitsToNat rest
      pure (d * 10 ^ rest.length + r)

/-- Models `strconv.ParseInt` as used by `json.Number.Int64`: an optional
sign followed by decimal digits, rejected outside the `int64` range. -/
def parseGoInt64 (s : List Char) : Option ℤ :=
  let signed : Option ℤ :=
    match s with
    | '-' :: rest => (digitsToNat rest).map (fun n => -(n : ℤ))
    | '+' :: rest => (digitsToNat rest).map (fun n => (n : ℤ))
    | _ => (digitsToNat s).map (fun n => (n : ℤ))
  match signed with
  | some i => if -(2 ^ 63) ≤ i ∧ i ≤ 2 ^ 63 - 1 then some i else none
  | none => none

/-- Models `strconv.ParseFloat` as used by `json.Number.Float64`, on the
JSON-number grammar: optional sign, integer digits, optional fraction,
optional decimal exponent.  The value is returned exactly as a signed
decimal mantissa `n` and a power-of-ten scale `k`, denoting `n / 10^k`. -/
def parseGoFloat (s : List Char) : Option (ℤ × ℕ) :=
  let core : List Char → Option (ℤ × ℕ) := fun t =>
    let expSplit := t.splitOn 'e'
    let mantExp : Option (List Char × Option (List Char)) :=
      match expSplit with
      | [m] => some (m, none)
      | [m, ex] => some (m, some ex)
      | _ => none
    match mantExp with
    | none => none
    | some (m, ex) =>
      let dotSplit := m.splitOn '.'
      let mant : Option (ℤ × ℕ) :=
        match dotSplit with
        | [ip] => (digitsToNat ip).map (fun n => ((n : ℤ), 0))
        | [ip, fp] => do
            let i ← digitsToNat ip
            let f ← digitsToNat fp
            pure (((i * 10 ^ fp.length + f : ℕ) : ℤ), fp.length)
        | _ => none
      match mant, ex with
      | some nk, none => some nk
      | some nk, some ex =>
          (match ex with
           | '-' :: rest => (digitsToNat rest).map (fun e => (nk.1, nk.2 + e))
           | '+' :: rest => (digitsToNat rest).map (fun e => (nk.1 * 10 ^ e, nk.2))
           | _ => (digitsToNat ex).map (fun e => (nk.1 * 10 ^ e, nk.2)))
      | none, _ => none
  let lowered := fun (t : List Char) => t.map (fun c => if c = 'E' then 'e' else c)
  match s with
  | '-' :: rest => (core (lowered rest)).map (fun nk => (-nk.1, nk.2))
  | '+' :: rest => core (lowered rest)
  | _ => core (lowered s)

/-- `toFloat` converts a JSON number (`float64`) or nil to `float64`,
returning NaN for nil, wrong-typed, and unparseable values. -/
noncomputable def toFloat : GoVal → F64
  | GoVal.vnil => F64.nan
  | GoVal.vfloat f => f
  | GoVal.vnumber s =>
      match parseGoFloat s with
      | some nk => F64.fin ((nk.1 : ℝ) / 10 ^ nk.2)
      | none => F64.nan
  | _ => F64.nan

/-- `toInt64` converts a JSON number to `int64`, returning an error for
nil, out-of-range (including NaN and infinities), or invalid types. -/
noncomputable def toInt64 : GoVal → Except String ℤ
  | GoVal.vnil => Except.error ("nil timestamp")
  | GoVal.vfloat f =>
      if F64.Lt f (F64.fin (-(2 ^ 63 : ℝ))) ∨ F64.Lt (F64.fin ((2 : ℝ) ^ 63 - 1)) f ∨
          f.isNan = true ∨ f.isInf = true then
        Except.error ("timestamp out of int64 range")
      else
        Except.ok f.trunc
  | GoVal.vnumber s =>
      match parseGoInt64 s with
      | some i => Except.ok i
      | none => Except.error ("invalid timestamp number")
  | _ => Except.error ("invalid timestamp type")

/-- `Observation` holds the parsed fields from an `obs_st` WebSocket
message; fields that were null in the source data are stored as NaN. -/
structure Observation where
  Timestamp : ℤ
  WindLull : F64
  WindAvg : F64
  WindGust : F64
  WindDirection : F64
  WindSampleInterval : F64
  StationPressure : F64
  AirTemperature : F64
  RelativeHumidity : F64
  Illuminance : F64
  UV : F64
  SolarRadiation : F64
  RainAccumulated : F64
  PrecipitationType : F64
  LightningStrikeAvgDist : F64
  LightningStrikeCount : F64
  Battery : F64
  ReportInterval : F64

def obsSTFieldCount : ℕ := 18

/-- `ParseObservation` safely extracts an `Observation` from the raw
`obs_st` array of 18 fixed-order elements. -/
noncomputable def ParseObservation (raw : List GoVal) : Except String Observation :=
  if h : raw.length < obsSTFieldCount then
    Except.error ("obs_st array too short")
  else
    match toInt64 (raw.get ⟨0, by simp [obsSTFieldCount] at h ⊢; omega⟩) with
    | Except.error e => Except.error ("parsing timestamp: " ++ e)
    | Except.ok ts =>
      Except.ok
        { Timestamp := ts
          WindLull := toFloat (raw.get ⟨1, by simp [obsSTFieldCount] at h ⊢; omega⟩)
          WindAvg := toFloat (raw.get ⟨2, by simp [obsSTFieldCount] at h ⊢; omega⟩)
          WindGust := toFloat (raw.get ⟨3, by simp [obsSTFieldCount] at h ⊢; omega⟩)
          WindDirection := toFloat (raw.get ⟨4, by simp [obsSTFieldCount] at h ⊢; omega⟩)
          WindSampleInterval := toFloat (raw.get ⟨5, by simp [obsSTFieldCount] at h ⊢; omega⟩)
          StationPressure := toFloat (raw.get ⟨6, by simp [obsSTFieldCount] at h ⊢; omega⟩)
          AirTemperature := toFloat (raw.get ⟨7, by simp [obsSTFieldCount] at h ⊢; omega⟩)
          RelativeHumidity := toFloat (raw.get ⟨8, by simp [obsSTFieldCount] at h ⊢; omega⟩)
          Illuminance := toFloat (raw.get ⟨9, by simp [obsSTFieldCount] at h ⊢; omega⟩)
          UV := toFloat (raw.get ⟨10, by simp [obsSTFieldCount] at h ⊢; omega⟩)
          SolarRadiation := toFloat (raw.get ⟨11, by simp [obsSTFieldCount] at h ⊢; omega⟩)
          RainAccumulated := toFloat (raw.get ⟨12, by simp [obsSTFieldCount] at h ⊢; omega⟩)
          PrecipitationType := toFloat (raw.get ⟨13, by simp [obsSTFieldCount] at h ⊢; omega⟩)
          LightningStrikeAvgDist := toFloat (raw.get ⟨14, by simp [obsSTFieldCount] at h ⊢; omega⟩)
          LightningStrikeCount := toFloat (raw.get ⟨15, by simp [obsSTFieldCount] at h ⊢; omega⟩)
          Battery := toFloat (raw.get ⟨16, by simp [obsSTFieldCount] at h ⊢; omega⟩)
          ReportInterval := toFloat (raw.get ⟨17, by simp [obsSTFieldCount] at h ⊢; omega⟩) }

/-- The Magnus-formula gamma term used by `DewPoint`. -/
noncomputable def magnusGamma (t h : ℝ) : ℝ :=
  (17.27 * t) / (237.7 + t) + Real.log (h / 100)

/-- `DewPoint` computes dew point in Celsius using the Magnus formula;
NaN inputs and non-positive humidity yield NaN.  Infinite inputs (which
cannot arise from the codec) also propagate to NaN, matching IEEE
evaluation of the formula. -/
noncomputable def DewPoint (tempC humidityPct : F64) : F64 :=
  if tempC.isNan = true ∨ humidityPct.isNan = true ∨ F64.Le humidityPct (F64.fin 0) then
    F64.nan
  else
    match tempC, humidityPct with
    | F64.fin t, F64.fin h =>
        F64.fin ((237.7 * magnusGamma t h) / (17.27 - magnusGamma t h))
    | _, _ => F64.nan

/-- The Environment Canada wind-chill polynomial (inputs: Celsius
temperature and wind in km/h). -/
noncomputable def windChill (t v : ℝ) : ℝ :=
  13.12 + 0.6215 * t - 11.37 * v ^ (0.16 : ℝ) + 0.3965 * t * v ^ (0.16 : ℝ)

/-- The simplified Rothfusz/NOAA heat-index regression, computed in the
Fahrenheit domain and converted back to Celsius. -/
noncomputable def heatIndexC (t h : ℝ) : ℝ :=
  let tf := t * 1.8 + 32.0
  let hi := -42.379 + 2.04901523 * tf + 10.14333127 * h -
    0.22475541 * tf * h - 0.00683783 * tf * tf - 0.05481717 * h * h +
    0.00122874 * tf * tf * h + 0.00085282 * tf * h * h -
    0.00000199 * tf * tf * h * h
  (hi - 32.0) / 1.8

/-- Go `windMps * 3.6` (conversion to km/h by a positive finite
constant): NaN and infinities are preserved. -/
noncomputable def toKmh : F64 → F64
  | F64.nan => F64.nan
  | F64.inf s => F64.inf s
  | F64.fin x => F64.fin (x * 3.6)

/-- `FeelsLike` computes the feels-like temperature in Celsius: wind
chill when `tempC < 10` and wind exceeds 4.8 km/h, heat index when
`tempC >= 27` and humidity is at least 40%, otherwise the air
temperature.  Infinite inputs (impossible from the codec) map to NaN. -/
noncomputable def FeelsLike (tempC humidityPct windMps : F64) : F64 :=
  if tempC.isNan = true then F64.nan
  else
    let windKmh := toKmh windMps
    if F64.Lt tempC (F64.fin 10.0) ∧ F64.Lt (F64.fin 4.8) windKmh then
      match tempC, windKmh with
      | F64.fin t, F64.fin v => F64.fin (windChill t v)
      | _, _ => F64.nan
    else if F64.Le (F64.fin 27.0) tempC ∧ F64.Le (F64.fin 40.0) humidityPct then
      match tempC, humidityPct with
      | F64.fin t, F64.fin h => F64.fin (heatIndexC t h)
      | _, _ => F64.nan
    else tempC

/-- `restObs` is a single observation from the REST API: every field is
an optional pointer (`nil` modelled as `none`).  JSON-decoded `*float64`
values are finite reals. -/
structure restObs where
  Timestamp : Option ℝ
  WindLull : Option ℝ
  WindAvg : Option ℝ
  WindGust : Option ℝ
  WindDirection : Option ℝ
  StationPressure : Option ℝ
  AirTemperature : Option ℝ
  RelativeHumidity : Option ℝ
  Illuminance : Option ℝ
  UV : Option ℝ
  SolarRadiation : Option ℝ
  RainAccumulated : Option ℝ
  PrecipitationType : Option ℝ
  LightningStrikeAvgDist : Option ℝ
  LightningStrikeCount : Option ℝ
  Battery : Option ℝ
  ReportInterval : Option ℝ

/-- `deref` returns the pointed-to value, or 0 for a nil pointer. -/
def deref : Option ℝ → ℝ
  | none => 0
  | some x => x

/-- Go truncation `int64(ts)` for a non-negative real. -/
noncomputable def truncNonneg (x : ℝ) : ℤ := ⌊x⌋

/-- `restObsToObservation` maps a REST observation onto `Observation`:
absent fields dereference to 0; the timestamp is taken only when present
and within `[0, math.MaxInt64]`, otherwise it stays at the zero value.
The REST payload has no wind-sample-interval field; it stays NaN-free at
`deref none = 0` in the Go zero-value struct, modelled as `fin 0`. -/
noncomputable def restObsToObservation (ro : restObs) : Observation :=
  { Timestamp :=
      match ro.Timestamp with
      | some ts => if 0 ≤ ts ∧ ts ≤ (2 : ℝ) ^ 63 - 1 then truncNonneg ts else 0
      | none => 0
    WindLull := F64.fin (deref ro.WindLull)
    WindAvg := F64.fin (deref ro.WindAvg)
    WindGust := F64.fin (deref ro.WindGust)
    WindDirection := F64.fin (deref ro.WindDirection)
    WindSampleInterval := F64.fin 0
    StationPressure := F64.fin (deref ro.StationPressure)
    AirTemperature := F64.fin (deref ro.AirTemperature)
    RelativeHumidity := F64.fin (deref ro.RelativeHumidity)
    Illuminance := F64.fin (deref ro.Illuminance)
    UV := F64.fin (deref ro.UV)
    SolarRadiation := F64.fin (deref ro.SolarRadiation)
    RainAccumulated := F64.fin (deref ro.RainAccumulated)
    PrecipitationType := F64.fin (deref ro.PrecipitationType)
    LightningStrikeAvgDist := F64.fin (deref ro.LightningStrikeAvgDist)
    LightningStrikeCount := F64.fin (deref ro.LightningStrikeCount)
    Battery := F64.fin (deref ro.Battery)
    ReportInterval := F64.fin (deref ro.ReportInterval) }

/-! ### Reconnect loop (`Client.Run`): backoff state machine

Time is modelled in seconds.  `backoff` starts at 1 second, doubles after
each failed cycle, and is capped at 60 seconds; a prior session longer
than 2 minutes resets it to 1 second before the wait. -/

/-- State carried across reconnect cycles: the current backoff delay in
seconds and the reconnect counter. -/
structure RunState where
  backoff : ℕ
  reconnects : ℕ

/-- Initial state of `Client.Run`: backoff one second, counter zero. -/
def initRunState : RunState := ⟨1, 0⟩

/-- One failed connection cycle of `Client.Run`: `d` is the duration in
seconds that `connectAndRead` was up before failing.  Returns the new
state and the backoff wait performed this cycle. -/
def runCycle (s : RunState) (d : ℕ) : RunState × ℕ :=
  let reconnects := s.reconnects + 1
  let b := if 120 < d then 1 else s.backoff
  let wait := b
  let b2 := min (b * 2) 60
  (⟨b2, reconnects⟩, wait)

/-- Runs `Client.Run` over a list of failed-session durations, collecting
the final state and the sequence of backoff waits. -/
def runTrace : RunState → List ℕ → RunState × List ℕ
  | s, [] => (s, [])
  | s, d :: ds =>
    let c := runCycle s d
    let r := runTrace c.1 ds
    (r.1, c.2 :: r.2)

/-! ### Polling fallback (`RESTClient.RunFallback`) -/

/-- One tick of `RunFallback`.  `st` is the recorded disconnected-since
marker, `connected` the store's connectivity flag, `now` the tick time in
seconds.  Returns the new marker and whether a fetch was issued. -/
def fallbackTick (st : Option ℕ) (connected : Bool) (now threshold : ℕ) :
    Option ℕ × Bool :=
  if connected then (none, false)
  else
    match st with
    | none => (some now, false)
    | some t0 => if now - t0 < threshold then (some t0, false) else (some t0, true)

/-- Runs the fallback loop over a list of ticks (connectivity flag and
time per tick), returning the per-tick fetch decisions. -/
def fallbackRun (st : Option ℕ) (threshold : ℕ) : List (Bool × ℕ) → List Bool
  | [] => []
  | (c, now) :: ts =>
    let r := fallbackTick st c now threshold
    r.2 :: fallbackRun r.1 threshold ts

/-! ### Read loop (`Client.readLoop`): parse-error rate limiting -/

/-- One item arriving at the read loop: a transport/timeout error, a
message whose envelope fails to unmarshal, or a parsed envelope with its
type discriminant. -/
inductive ReadItem where
  | readErr : ReadItem
  | unparseable : ReadItem
  | envelope : String → ReadItem

/-- `readLoop` over a list of read results, starting from parse-error
counter `pe`.  Returns the final counter, the counter values at which a
warning was logged, and whether the loop exited with a read error. -/
def readLoopModel (pe : ℕ) : List ReadItem → ℕ × List ℕ × Bool
  | [] => (pe, [], false)
  | ReadItem.readErr :: _ => (pe, [], true)
  | ReadItem.unparseable :: rest =>
    let c := pe + 1
    let r := readLoopModel c rest
    (r.1, (if c = 1 ∨ c % 100 = 0 then [c] else []) ++ r.2.1, r.2.2)
  | ReadItem.envelope _ :: rest => readLoopModel pe rest

/-! ### Token redaction (`redactToken`) -/

/-- Worker for `replaceAll`, structurally recursive on a fuel argument
(always called with fuel at least the length of `s`). -/
def replaceAllGo : ℕ → List Char → List Char → List Char → List Char
  | 0, s, _, _ => s
  | _ + 1, [], _, _ => []
  | fuel + 1, c :: rest, pat, rep =>
    if pat ≠ [] ∧ pat.isPrefixOf (c :: rest) then
      rep ++ replaceAllGo fuel (List.drop pat.length (c :: rest)) pat rep
    else
      c :: replaceAllGo fuel rest pat rep

/-- Models Go `strings.ReplaceAll s pat rep`: replaces every
non-overlapping occurrence of `pat`, scanning left to right. -/
def replaceAll (s pat rep : List Char) : List Char :=
  replaceAllGo s.length s pat rep

/-- The redaction placeholder `"[REDACTED]"`. -/
def redactedText : List Char := ['[', 'R', 'E', 'D', 'A', 'C', 'T', 'E', 'D', ']']

/-- `redactToken` replaces occurrences of the token in a string with
`"[REDACTED]"`; an empty token is a no-op. -/
def redactToken (s token : List Char) : List Char :=
  if token = [] then s else replaceAll s token redactedText

/-! ### Collector (`Collect`) -/

/-- Identifiers of the Prometheus metric descriptors emitted by
`Collect`. -/
inductive MetricId where
  | mUp | mReconnects | mScrapeErrors | mLastObservation
  | mWindLull | mWindAvg | mWindGust | mWindDirection
  | mStationPressure | mAirTemperature | mRelativeHumidity
  | mIlluminance | mUV | mSolarRadiation | mRainAccumulated
  | mPrecipitationType | mLightningStrikeAvgDist | mLightningStrikeCount
  | mBattery | mDewPoint | mFeelsLike | mRainStartEpoch
deriving DecidableEq

/-- The mutable state of the `Collector` (snapshot store). -/
structure CollectorState where
  obs : Observation
  hasObs : Bool
  connected : Bool
  reconnects : ℝ
  scrapeErrors : ℝ
  rainStart : F64

/-- The observation gauges in the order `Collect` emits them (wind sample
interval and report interval are not exported). -/
def obsGaugePairs (o : Observation) : List (MetricId × F64) :=
  [(MetricId.mWindLull, o.WindLull), (MetricId.mWindAvg, o.WindAvg),
   (MetricId.mWindGust, o.WindGust), (MetricId.mWindDirection, o.WindDirection),
   (MetricId.mStationPressure, o.StationPressure),
   (MetricId.mAirTemperature, o.AirTemperature),
   (MetricId.mRelativeHumidity, o.RelativeHumidity),
   (MetricId.mIlluminance, o.Illuminance), (MetricId.mUV, o.UV),
   (MetricId.mSolarRadiation, o.SolarRadiation),
   (MetricId.mRainAccumulated, o.RainAccumulated),
   (MetricId.mPrecipitationType, o.PrecipitationType),
   (MetricId.mLightningStrikeAvgDist, o.LightningStrikeAvgDist),
   (MetricId.mLightningStrikeCount, o.LightningStrikeCount),
   (MetricId.mBattery, o.Battery)]

/-- `Collect` emits the current metric values: the health metrics
unconditionally, the last-observation timestamp once an observation is
stored, then (only with a stored observation) each observation and
derived gauge through `emitGauge`, which skips NaN values, and the
rain-start gauge only when `rainStart > 0`. -/
noncomputable def collect (st : CollectorState) : List (MetricId × F64) :=
  [(MetricId.mUp, F64.fin (if st.connected then 1 else 0)),
   (MetricId.mReconnects, F64.fin st.reconnects),
   (MetricId.mScrapeErrors, F64.fin st.scrapeErrors)]
  ++ (if st.hasObs then [(MetricId.mLastObservation, F64.fin (st.obs.Timestamp : ℝ))] else [])
  ++ (if st.hasObs then
        ((obsGaugePairs st.obs ++
          [(MetricId.mDewPoint, DewPoint st.obs.AirTemperature st.obs.RelativeHumidity),
           (MetricId.mFeelsLike,
             FeelsLike st.obs.AirTemperature st.obs.RelativeHumidity st.obs.WindAvg)]).filter
          (fun p => !p.2.isNan))
        ++ (if F64.Lt (F64.fin 0) st.rainStart then
              [(MetricId.mRainStartEpoch, st.rainStart)].filter (fun p => !p.2.isNan)
            else [])
      else [])

/-- The parsed observation built from slots 1..17 of a frame. -/
noncomputable def frameFields (raw : List GoVal) (ts : ℤ) : Observation :=
  { Timestamp := ts
    WindLull := toFloat (raw.getD 1 GoVal.vnil)
    WindAvg := toFloat (raw.getD 2 GoVal.vnil)
    WindGust := toFloat (raw.getD 3 GoVal.vnil)
    WindDirection := toFloat (raw.getD 4 GoVal.vnil)
    WindSampleInterval := toFloat (raw.getD 5 GoVal.vnil)
    StationPressure := toFloat (raw.getD 6 GoVal.vnil)
    AirTemperature := toFloat (raw.getD 7 GoVal.vnil)
    RelativeHumidity := toFloat (raw.getD 8 GoVal.vnil)
    Illuminance := toFloat (raw.getD 9 GoVal.vnil)
    UV := toFloat (raw.getD 10 GoVal.vnil)
    SolarRadiation := toFloat (raw.getD 11 GoVal.vnil)
    RainAccumulated := toFloat (raw.getD 12 GoVal.vnil)
    PrecipitationType := toFloat (raw.getD 13 GoVal.vnil)
    LightningStrikeAvgDist := toFloat (raw.getD 14 GoVal.vnil)
    LightningStrikeCount := toFloat (raw.getD 15 GoVal.vnil)
    Battery := toFloat (raw.getD 16 GoVal.vnil)
    ReportInterval := toFloat (raw.getD 17 GoVal.vnil) }

/-- Whether a read item is a message whose envelope fails to parse. -/
def isUnparseable : ReadItem → Bool
  | ReadItem.unparseable => true
  | _ => false

/-- The pre-filter list of observation and derived gauges. -/
noncomputable def gaugeCandidates (o : Observation) : List (MetricId × F64) :=
  obsGaugePairs o ++
    [(MetricId.mDewPoint, DewPoint o.AirTemperature o.RelativeHumidity),
     (MetricId.mFeelsLike, FeelsLike o.AirTemperature o.RelativeHumidity o.WindAvg)]

/-- A concrete observation for the C10 witness: air temperature unknown,
other fields finite. -/
noncomputable def obsW : Observation :=
  { Timestamp := 1700000000, WindLull := F64.fin 1, WindAvg := F64.fin 2,
    WindGust := F64.fin 3, WindDirection := F64.fin 4,
    WindSampleInterval := F64.fin 3, StationPressure := F64.fin 1013,
    AirTemperature := F64.nan, RelativeHumidity := F64.fin 50,
    Illuminance := F64.fin 100, UV := F64.fin 1, SolarRadiation := F64.fin 10,
    RainAccumulated := F64.fin 0, PrecipitationType := F64.fin 0,
    LightningStrikeAvgDist := F64.fin 0, LightningStrikeCount := F64.fin 0,
    Battery := F64.fin 2.65, ReportInterval := F64.fin 60 }

/-- Collector state before any observation, for the C10 witness. -/
noncomputable def stNoObs : CollectorState := ⟨obsW, false, false, 0, 0, F64.fin 0⟩

/-- Collector state with a stored observation, for the C10 witness. -/
noncomputable def stWithObs : CollectorState := ⟨obsW, true, true, 3, 0, F64.fin 0⟩

/-! ## Claims -/

lemma minDoubleCap (b : ℕ) (i : ℕ) :
    min (min (b * 2) 60 * 2 ^ i) 60 = min (b * 2 ^ (i + 1)) 60 := by
  rcases le_total (b * 2) 60 with h | h
  · rw [min_eq_left h, pow_succ]
    ring_nf
  · rw [min_eq_right h]
    have h1 : (60 : ℕ) ≤ 60 * 2 ^ i := Nat.le_mul_of_pos_right _ (Nat.pos_pow_of_pos i (by norm_num))
    have h2 : (60 : ℕ) ≤ b * 2 ^ (i + 1) := by
      calc (60 : ℕ) ≤ b * 2 := h
        _ ≤ b * 2 * 2 ^ i := Nat.le_mul_of_pos_right _ (Nat.pos_pow_of_pos i (by norm_num))
        _ = b * 2 ^ (i + 1) := by ring
    rw [min_eq_right (le_trans (le_refl 60) h1), min_eq_right h2]

lemma runTrace_reconnects (s : RunState) (ds : List ℕ) :
    (runTrace s ds).1.reconnects = s.reconnects + ds.length := by
  induction ds generalizing s with
  | nil => simp [runTrace]
  | cons d ds ih =>
    simp only [runTrace, runCycle, List.length_cons]
    rw [ih]
    dsimp only
    omega

lemma runTrace_waits (ds : List ℕ) (hq : ∀ d ∈ ds, d ≤ 120) (s : RunState)
    (hb : s.backoff ≤ 60) :
    (runTrace s ds).2 = (List.range ds.length).map (fun i => min (s.backoff * 2 ^ i) 60) := by
  induction ds generalizing s with
  | nil => simp [runTrace]
  | cons d ds ih =>
    have hd : ¬ 120 < d := by
      have := hq d (List.mem_cons_self _ _)
      omega
    have hrest : ∀ x ∈ ds, x ≤ 120 := fun x hx => hq x (List.mem_cons_of_mem _ hx)
    simp only [runTrace, runCycle, if_neg hd, List.length_cons, List.range_succ_eq_map,
      List.map_cons, List.map_map]
    congr 1
    · simp [min_eq_left hb]
    · rw [ih hrest ⟨min (s.backoff * 2) 60, s.reconnects + 1⟩ (min_le_right _ _)]
      apply List.map_congr_left
      intro i _
      simp only [Function.comp_apply]
      exact minDoubleCap s.backoff i

/-- C3: every failed connection cycle of `Client.Run` increments the
reconnect counter by exactly 1; starting from the initial state, the
backoff waits for N consecutive quick failures (each prior session at
most 2 minutes) are `min (2 ^ i) 60` seconds, i.e. 1, 2, 4, ... capped at
60; and a cycle whose prior session lasted more than 2 minutes waits
exactly 1 second. -/
theorem C3_reconnect_backoff :
    (∀ (s : RunState) (ds : List ℕ),
      (runTrace s ds).1.reconnects = s.reconnects + ds.length) ∧
    (∀ ds : List ℕ, (∀ d ∈ ds, d ≤ 120) →
      (runTrace initRunState ds).2 =
        (List.range ds.length).map (fun i => min (2 ^ i) 60)) ∧
    (∀ (s : RunState) (d : ℕ), 120 < d → (runCycle s d).2 = 1) := by
  refine ⟨runTrace_reconnects, fun ds hq => ?_, fun s d hd => ?_⟩
  · rw [runTrace_waits ds hq initRunState (by norm_num [initRunState])]
    simp [initRunState]
  · simp [runCycle, if_pos hd]

/-- Witness for C3 at concrete inputs: eight quick failures from the
initial state produce waits 1, 2, 4, 8, 16, 32, 60, 60 and eight counted
reconnects, and a slow session resets the wait to 1. -/
theorem C3_reconnect_backoff_witness :
    (runTrace initRunState [0, 0, 0, 0, 0, 0, 0, 0]).2 =
        [1, 2, 4, 8, 16, 32, 60, 60] ∧
    (runTrace initRunState [0, 0, 0, 0, 0, 0, 0, 0]).1.reconnects = 8 ∧
    (runCycle ⟨60, 5⟩ 121).2 = 1 := by
  refine ⟨?_, ?_, ?_⟩
  · rw [C3_reconnect_backoff.2.1 [0, 0, 0, 0, 0, 0, 0, 0] (by decide)]
    decide
  · rw [C3_reconnect_backoff.1 initRunState [0, 0, 0, 0, 0, 0, 0, 0]]
    decide
  · exact C3_reconnect_backoff.2.2 ⟨60, 5⟩ 121 (by decide)

lemma fallbackRun_marked (t0 th : ℕ) (ts : List ℕ) :
    fallbackRun (some t0) th (ts.map (fun t => (false, t))) =
      ts.map (fun t => decide (th ≤ t - t0)) := by
  induction ts with
  | nil => simp [fallbackRun]
  | cons t ts ih =>
    by_cases h : t - t0 < th
    · simp only [List.map_cons, fallbackRun, fallbackTick, if_neg (by simp : ¬ false = true),
        if_pos h]
      rw [ih]
      simp
      omega
    · simp only [List.map_cons, fallbackRun, fallbackTick, if_neg (by simp : ¬ false = true),
        if_neg h]
      rw [ih]
      simp
      omega

/-- C4: behaviour of the `RunFallback` tick loop.  (1) A tick that
observes the store connected issues no fetch and clears the
disconnected-since marker.  (2) A fetch is issued only on a disconnected
tick whose recorded marker is at least the disconnect threshold old.
(3) Once a fetch fires, the marker is unchanged and every later
disconnected tick (time monotone) fetches again.  (4) On an
all-disconnected trace starting with no marker, the first tick only
records the marker, and tick `t` fetches exactly when `threshold ≤ t -
t0`, where `t0` is the first tick's time. -/
theorem C4_fallback_policy :
    (∀ (st : Option ℕ) (now th : ℕ), fallbackTick st true now th = (none, false)) ∧
    (∀ (st : Option ℕ) (c : Bool) (now th : ℕ),
      (fallbackTick st c now th).2 = true →
        c = false ∧ ∃ t0, st = some t0 ∧ th ≤ now - t0) ∧
    (∀ (t0 now th : ℕ), th ≤ now - t0 →
      fallbackTick (some t0) false now th = (some t0, true) ∧
      ∀ now', now ≤ now' → t0 ≤ now →
        (fallbackTick (some t0) false now' th).2 = true) ∧
    (∀ (t0 th : ℕ) (ts : List ℕ),
      fallbackRun none th ((false, t0) :: ts.map (fun t => (false, t))) =
        false :: ts.map (fun t => decide (th ≤ t - t0))) := by
  refine ⟨?_, ?_, ?_, ?_⟩
  · intro st now th
    simp [fallbackTick]
  · intro st c now th hf
    cases c with
    | true => simp [fallbackTick] at hf
    | false =>
      refine ⟨rfl, ?_⟩
      cases st with
      | none => simp [fallbackTick] at hf
      | some t0 =>
        refine ⟨t0, rfl, ?_⟩
        by_cases h : now - t0 < th
        · simp [fallbackTick, if_pos h] at hf
        · omega
  · intro t0 now th h
    constructor
    · simp [fallbackTick]
      omega
    · intro now' h1 h2
      have : ¬ now' - t0 < th := by omega
      simp [fallbackTick, this]
  · intro t0 th ts
    simp only [fallbackRun, fallbackTick, if_neg (by simp : ¬ false = true)]
    rw [fallbackRun_marked]

/-- Witness for C4 at concrete inputs: with threshold 300 and ticks at
0, 60, 120, 400 while disconnected, only the tick at 400 fetches; a
connected tick clears the marker and does not fetch. -/
theorem C4_fallback_policy_witness :
    fallbackRun none 300 [(false, 0), (false, 60), (false, 120), (false, 400)] =
        [false, false, false, true] ∧
    fallbackTick (some 0) true 460 300 = (none, false) := by
  constructor
  · have h := C4_fallback_policy.2.2.2 0 300 [60, 120, 400]
    simpa using h
  · exact C4_fallback_policy.1 (some 0) 460 300

lemma readLoopModel_spec (ms : List ReadItem) (pe : ℕ)
    (hok : ∀ m ∈ ms, m ≠ ReadItem.readErr) :
    readLoopModel pe ms =
      (pe + ms.countP isUnparseable,
       (List.range' (pe + 1) (ms.countP isUnparseable)).filter
         (fun k => decide (k = 1 ∨ k % 100 = 0)),
       false) := by
  induction ms generalizing pe with
  | nil => simp [readLoopModel]
  | cons m ms ih =>
    have hrest : ∀ x ∈ ms, x ≠ ReadItem.readErr :=
      fun x hx => hok x (List.mem_cons_of_mem _ hx)
    cases m with
    | readErr => exact absurd rfl (hok _ (List.mem_cons_self _ _))
    | unparseable =>
      have hcount : (ReadItem.unparseable :: ms).countP isUnparseable
          = ms.countP isUnparseable + 1 := by
        simp [List.countP_cons, isUnparseable]
      simp only [readLoopModel]
      rw [ih (pe + 1) hrest, hcount]
      simp only [Prod.mk.injEq]
      refine ⟨by omega, ?_, trivial⟩
      rw [List.range'_succ, List.filter_cons]
      by_cases h : pe + 1 = 1 ∨ (pe + 1) % 100 = 0
      · rw [if_pos h, if_pos (decide_eq_true h)]
        simp
      · rw [if_neg h, if_neg (by simpa using h)]
        simp
    | envelope t =>
      simp only [readLoopModel]
      rw [ih pe hrest]
      simp [List.countP_cons, isUnparseable]

/-- C9: in the read loop, starting from a freshly reset parse-error
counter, every message whose envelope fails to parse increments the
counter by exactly 1; a warning is logged exactly at the counts that
equal 1 or are a multiple of 100; and no such message terminates the
loop (the exit flag stays false — the connection is torn down only by a
read error). -/
theorem C9_parse_error_rate_limit :
    ∀ ms : List ReadItem, (∀ m ∈ ms, m ≠ ReadItem.readErr) →
      readLoopModel 0 ms =
        (ms.countP isUnparseable,
         (List.range' 1 (ms.countP isUnparseable)).filter
           (fun k => decide (k = 1 ∨ k % 100 = 0)),
         false) := by
  intro ms hok
  have h := readLoopModel_spec ms 0 hok
  simpa using h

/-- Witness for C9 at a concrete input: three messages, two of them
unparseable, leave the counter at 2, log only the first occurrence, and
do not tear the loop down. -/
theorem C9_parse_error_rate_limit_witness :
    readLoopModel 0
        [ReadItem.unparseable, ReadItem.envelope ("obs_st"), ReadItem.unparseable] =
      (2, [1], false) := by
  have h := C9_parse_error_rate_limit
    [ReadItem.unparseable, ReadItem.envelope ("obs_st"), ReadItem.unparseable]
    (by intro m hm; fin_cases hm <;> simp)
  simpa using h

/-- C2: in `restObsToObservation`, every absent (nil-pointer) field maps
to 0.0 — not to the NaN sentinel — and the timestamp is copied exactly
when present with an integer value in the non-negative int64 range,
otherwise the observation's timestamp stays at its zero value. -/
theorem C2_rest_absent_fields :
    (F64.fin 0 ≠ F64.nan) ∧
    (∀ ro : restObs,
      (ro.WindLull = none → (restObsToObservation ro).WindLull = F64.fin 0) ∧
      (ro.WindAvg = none → (restObsToObservation ro).WindAvg = F64.fin 0) ∧
      (ro.WindGust = none → (restObsToObservation ro).WindGust = F64.fin 0) ∧
      (ro.WindDirection = none → (restObsToObservation ro).WindDirection = F64.fin 0) ∧
      (ro.StationPressure = none → (restObsToObservation ro).StationPressure = F64.fin 0) ∧
      (ro.AirTemperature = none → (restObsToObservation ro).AirTemperature = F64.fin 0) ∧
      (ro.RelativeHumidity = none → (restObsToObservation ro).RelativeHumidity = F64.fin 0) ∧
      (ro.Illuminance = none → (restObsToObservation ro).Illuminance = F64.fin 0) ∧
      (ro.UV = none → (restObsToObservation ro).UV = F64.fin 0) ∧
      (ro.SolarRadiation = none → (restObsToObservation ro).SolarRadiation = F64.fin 0) ∧
      (ro.RainAccumulated = none → (restObsToObservation ro).RainAccumulated = F64.fin 0) ∧
      (ro.PrecipitationType = none → (restObsToObservation ro).PrecipitationType = F64.fin 0) ∧
      (ro.LightningStrikeAvgDist = none →
        (restObsToObservation ro).LightningStrikeAvgDist = F64.fin 0) ∧
      (ro.LightningStrikeCount = none →
        (restObsToObservation ro).LightningStrikeCount = F64.fin 0) ∧
      (ro.Battery = none → (restObsToObservation ro).Battery = F64.fin 0) ∧
      (ro.ReportInterval = none → (restObsToObservation ro).ReportInterval = F64.fin 0)) ∧
    (∀ (ro : restObs) (n : ℤ), ro.Timestamp = some (n : ℝ) → 0 ≤ n →
      n ≤ 2 ^ 63 - 1 → (restObsToObservation ro).Timestamp = n) ∧
    (∀ ro : restObs, ro.Timestamp = none → (restObsToObservation ro).Timestamp = 0) ∧
    (∀ (ro : restObs) (ts : ℝ), ro.Timestamp = some ts →
      (ts < 0 ∨ (2 : ℝ) ^ 63 - 1 < ts) → (restObsToObservation ro).Timestamp = 0) := by
  refine ⟨by simp, fun ro => ?_, fun ro n hts h0 h63 => ?_, fun ro hts => ?_,
    fun ro ts hts hout => ?_⟩
  · refine ⟨?_, ?_, ?_, ?_, ?_, ?_, ?_, ?_, ?_, ?_, ?_, ?_, ?_, ?_, ?_, ?_⟩ <;>
      (intro h; simp [restObsToObservation, h, deref])
  · have hcond : 0 ≤ (n : ℝ) ∧ (n : ℝ) ≤ (2 : ℝ) ^ 63 - 1 := by
      constructor
      · exact_mod_cast h0
      · have : ((n : ℝ)) ≤ ((2 ^ 63 - 1 : ℤ) : ℝ) := by exact_mod_cast h63
        calc (n : ℝ) ≤ ((2 ^ 63 - 1 : ℤ) : ℝ) := this
          _ = (2 : ℝ) ^ 63 - 1 := by push_cast; ring
    simp only [restObsToObservation, hts, if_pos hcond, truncNonneg, Int.floor_intCast]
  · simp [restObsToObservation, hts]
  · have hcond : ¬ (0 ≤ ts ∧ ts ≤ (2 : ℝ) ^ 63 - 1) := by
      rcases hout with h | h
      · intro hc; linarith [hc.1]
      · intro hc; linarith [hc.2]
    simp only [restObsToObservation, hts, if_neg hcond]

/-- Witness for C2 at a concrete input: a response with only timestamp
and air temperature present maps absent fields to 0 and copies the
timestamp. -/
theorem C2_rest_absent_fields_witness :
    (restObsToObservation
        ⟨some ((1700000000 : ℤ) : ℝ), none, none, none, none, none, some 22.5,
         none, none, none, none, none, none, none, none, none, none⟩).WindLull =
      F64.fin 0 ∧
    (restObsToObservation
        ⟨some ((1700000000 : ℤ) : ℝ), none, none, none, none, none, some 22.5,
         none, none, none, none, none, none, none, none, none, none⟩).Timestamp =
      1700000000 := by
  constructor
  · exact (C2_rest_absent_fields.2.1 _).1 rfl
  · exact C2_rest_absent_fields.2.2.1 _ 1700000000 rfl (by norm_num) (by norm_num)

lemma ParseObservation_eq (raw : List GoVal) (h18 : 18 ≤ raw.length) :
    ParseObservation raw =
      match toInt64 (raw.getD 0 GoVal.vnil) with
      | Except.error e => Except.error ("parsing timestamp: " ++ e)
      | Except.ok ts => Except.ok (frameFields raw ts) := by
  have hg : ∀ (i : ℕ) (h : i < raw.length),
      raw.get ⟨i, h⟩ = raw.getD i GoVal.vnil :=
    fun i h => (List.getD_eq_getElem raw GoVal.vnil h).symm
  rw [ParseObservation, dif_neg (by simp only [obsSTFieldCount]; omega)]
  simp only [hg, frameFields]

/-- C1: decoding a raw stream frame.  A frame with fewer than 18 slots
fails; slot 0 being null, of non-numeric dynamic type, NaN, infinite, or
outside the int64 range fails; otherwise decoding succeeds, each
remaining field is the `toFloat` coercion of its slot, and `toFloat`
maps null and wrong-typed values to the NaN sentinel while passing
numeric values through exactly.  (Slot 0 is quantified over the values
the JSON decoder produces; `json.Number` timestamps occur only in unit
tests and are covered by the `toInt64` model separately.) -/
theorem C1_frame_decode :
    (∀ raw : List GoVal, raw.length < 18 →
      ∃ e, ParseObservation raw = Except.error e) ∧
    (∀ raw : List GoVal, 18 ≤ raw.length →
      (raw.getD 0 GoVal.vnil = GoVal.vnil ∨ raw.getD 0 GoVal.vnil = GoVal.vother ∨
       (∃ s, raw.getD 0 GoVal.vnil = GoVal.vstring s) ∨
       (∃ b, raw.getD 0 GoVal.vnil = GoVal.vbool b)) →
      ∃ e, ParseObservation raw = Except.error e) ∧
    (∀ (raw : List GoVal) (f : F64), 18 ≤ raw.length →
      raw.getD 0 GoVal.vnil = GoVal.vfloat f →
      (f = F64.nan ∨ f.isInf = true ∨ F64.Lt f (F64.fin (-(2 ^ 63 : ℝ))) ∨
        F64.Lt (F64.fin ((2 : ℝ) ^ 63 - 1)) f) →
      ∃ e, ParseObservation raw = Except.error e) ∧
    (∀ (raw : List GoVal) (x : ℝ), 18 ≤ raw.length →
      raw.getD 0 GoVal.vnil = GoVal.vfloat (F64.fin x) →
      -(2 ^ 63 : ℝ) ≤ x → x ≤ (2 : ℝ) ^ 63 - 1 →
      ParseObservation raw = Except.ok (frameFields raw (F64.fin x).trunc)) ∧
    (toFloat GoVal.vnil = F64.nan ∧ toFloat GoVal.vother = F64.nan ∧
     (∀ s, toFloat (GoVal.vstring s) = F64.nan) ∧
     (∀ b, toFloat (GoVal.vbool b) = F64.nan) ∧
     (∀ f, toFloat (GoVal.vfloat f) = f)) := by
  refine ⟨?_, ?_, ?_, ?_, rfl, rfl, fun s => rfl, fun b => rfl, fun f => rfl⟩
  · intro raw h
    exact ⟨_, by rw [ParseObservation, dif_pos (by simp only [obsSTFieldCount]; omega)]⟩
  · intro raw h18 h0
    rw [ParseObservation_eq raw h18]
    rcases h0 with h | h | ⟨s, h⟩ | ⟨b, h⟩ <;> rw [h] <;> exact ⟨_, rfl⟩
  · intro raw f h18 h0 hbad
    rw [ParseObservation_eq raw h18, h0]
    have : toInt64 (GoVal.vfloat f) = Except.error ("timestamp out of int64 range") := by
      rw [toInt64]
      rcases hbad with h | h | h | h
      · rw [if_pos (Or.inr (Or.inr (Or.inl (by rw [h]; rfl))))]
      · exact if_pos (Or.inr (Or.inr (Or.inr h)))
      · exact if_pos (Or.inl h)
      · exact if_pos (Or.inr (Or.inl h))
    rw [this]
    exact ⟨_, rfl⟩
  · intro raw x h18 h0 hlo hhi
    rw [ParseObservation_eq raw h18, h0]
    have : toInt64 (GoVal.vfloat (F64.fin x)) = Except.ok (F64.fin x).trunc := by
      rw [toInt64, if_neg]
      push_neg
      refine ⟨?_, ?_, by simp [F64.isNan], by simp [F64.isInf]⟩
      · show ¬ x < -(2 ^ 63 : ℝ)
        linarith
      · show ¬ (2 : ℝ) ^ 63 - 1 < x
        linarith
    rw [this]

/-- Witness for C1 at concrete frames: the empty frame and a frame with
a null timestamp fail; a full 18-slot frame with a valid timestamp
decodes with every field given by `toFloat` of its slot. -/
theorem C1_frame_decode_witness :
    (∃ e, ParseObservation [] = Except.error e) ∧
    (∃ e, ParseObservation
        (GoVal.vnil :: List.replicate 17 (GoVal.vfloat (F64.fin 0))) =
      Except.error e) ∧
    ParseObservation
        (GoVal.vfloat (F64.fin 1700000000) :: GoVal.vnil ::
          List.replicate 16 (GoVal.vfloat (F64.fin 2.5))) =
      Except.ok
        (frameFields
          (GoVal.vfloat (F64.fin 1700000000) :: GoVal.vnil ::
            List.replicate 16 (GoVal.vfloat (F64.fin 2.5)))
          (F64.fin 1700000000).trunc) := by
  refine ⟨C1_frame_decode.1 [] (by simp), ?_, ?_⟩
  · exact C1_frame_decode.2.1 _ (by simp) (Or.inl rfl)
  · exact C1_frame_decode.2.2.2.1 _ 1700000000 (by simp) rfl (by norm_num) (by norm_num)

/-- C8 counterexample: a slot holding the plain JSON string "3.14" is
not accepted by the numeric coercion — it maps to the NaN sentinel, not
to the number 3.14. -/
theorem C8_string_slot_counterexample :
    toFloat (GoVal.vstring ['3', '.', '1', '4']) = F64.nan ∧
    F64.nan ≠ F64.fin (3.14 : ℝ) := by
  refine ⟨rfl, ?_⟩
  intro h
  exact F64.noConfusion h

/-- C8 amended: string-encoded numerics are accepted by the coercion
only when they arrive as `json.Number` values (produced by a decoder in
`UseNumber` mode); such values decode to the encoded number, the same as
a native numeric value, while a plain JSON string always maps to the NaN
sentinel. -/
theorem C8_number_coercion :
    (∀ (s : List Char) (n : ℤ) (k : ℕ), parseGoFloat s = some (n, k) →
      toFloat (GoVal.vnumber s) = F64.fin ((n : ℝ) / 10 ^ k)) ∧
    (∀ s : List Char, toFloat (GoVal.vstring s) = F64.nan) ∧
    (∀ x : ℝ, toFloat (GoVal.vfloat (F64.fin x)) = F64.fin x) := by
  refine ⟨fun s n k h => ?_, fun s => rfl, fun x => rfl⟩
  simp [toFloat, h]

/-- Witness for C8 at a concrete input: the `json.Number` "3.14" decodes
to the rational 157/50, i.e. the real number 3.14. -/
theorem C8_number_coercion_witness :
    toFloat (GoVal.vnumber ['3', '.', '1', '4']) = F64.fin ((314 : ℝ) / 10 ^ 2) ∧
    ((314 : ℝ) / 10 ^ 2) = (3.14 : ℝ) := by
  refine ⟨C8_number_coercion.1 ['3', '.', '1', '4'] 314 2 (by decide), by norm_num⟩

/-- C5: `FeelsLike` returns NaN when the temperature is NaN; with
`windKmh = windMps * 3.6`, it returns the wind-chill polynomial exactly
when `tempC < 10` and `windKmh > 4.8`, else the NOAA heat-index
regression (computed in Fahrenheit, converted back) exactly when
`tempC >= 27` and `rhPct >= 40`, else the temperature unchanged.  The
NaN-sentinel cases reachable from the codec are covered: a NaN humidity
never satisfies the heat-index tier and a NaN wind never satisfies the
wind-chill tier (IEEE comparisons with NaN are false), so with both
sentinels present the temperature is returned unchanged; in particular
`FeelsLike 20 50 2 = 20`. -/
theorem C5_feels_like :
    (∀ h w : F64, FeelsLike F64.nan h w = F64.nan) ∧
    (∀ t h w : ℝ,
      FeelsLike (F64.fin t) (F64.fin h) (F64.fin w) =
        if t < 10 ∧ 4.8 < w * 3.6 then
          F64.fin (13.12 + 0.6215 * t - 11.37 * (w * 3.6) ^ (0.16 : ℝ) +
            0.3965 * t * (w * 3.6) ^ (0.16 : ℝ))
        else if 27 ≤ t ∧ 40 ≤ h then
          F64.fin
            ((-42.379 + 2.04901523 * (t * 1.8 + 32.0) + 10.14333127 * h -
                0.22475541 * (t * 1.8 + 32.0) * h -
                0.00683783 * (t * 1.8 + 32.0) * (t * 1.8 + 32.0) -
                0.05481717 * h * h +
                0.00122874 * (t * 1.8 + 32.0) * (t * 1.8 + 32.0) * h +
                0.00085282 * (t * 1.8 + 32.0) * h * h -
                0.00000199 * (t * 1.8 + 32.0) * (t * 1.8 + 32.0) * h * h - 32.0) / 1.8)
        else F64.fin t) ∧
    (∀ t w : ℝ,
      FeelsLike (F64.fin t) F64.nan (F64.fin w) =
        if t < 10 ∧ 4.8 < w * 3.6 then
          F64.fin (13.12 + 0.6215 * t - 11.37 * (w * 3.6) ^ (0.16 : ℝ) +
            0.3965 * t * (w * 3.6) ^ (0.16 : ℝ))
        else F64.fin t) ∧
    (∀ t h : ℝ,
      FeelsLike (F64.fin t) (F64.fin h) F64.nan =
        if 27 ≤ t ∧ 40 ≤ h then
          F64.fin
            ((-42.379 + 2.04901523 * (t * 1.8 + 32.0) + 10.14333127 * h -
                0.22475541 * (t * 1.8 + 32.0) * h -
                0.00683783 * (t * 1.8 + 32.0) * (t * 1.8 + 32.0) -
                0.05481717 * h * h +
                0.00122874 * (t * 1.8 + 32.0) * (t * 1.8 + 32.0) * h +
                0.00085282 * (t * 1.8 + 32.0) * h * h -
                0.00000199 * (t * 1.8 + 32.0) * (t * 1.8 + 32.0) * h * h - 32.0) / 1.8)
        else F64.fin t) ∧
    (∀ t : ℝ, FeelsLike (F64.fin t) F64.nan F64.nan = F64.fin t) ∧
    FeelsLike (F64.fin 20) (F64.fin 50) (F64.fin 2) = F64.fin 20 := by
  have hmain : ∀ t h w : ℝ,
      FeelsLike (F64.fin t) (F64.fin h) (F64.fin w) =
        if t < 10 ∧ 4.8 < w * 3.6 then F64.fin (windChill t (w * 3.6))
        else if 27 ≤ t ∧ 40 ≤ h then F64.fin (heatIndexC t h)
        else F64.fin t := by
    intro t h w
    rw [FeelsLike, if_neg (by simp [F64.isNan])]
    simp only [toKmh, F64.Lt, F64.Le]
    norm_num
  have hnanh : ∀ t w : ℝ,
      FeelsLike (F64.fin t) F64.nan (F64.fin w) =
        if t < 10 ∧ 4.8 < w * 3.6 then F64.fin (windChill t (w * 3.6))
        else F64.fin t := by
    intro t w
    rw [FeelsLike, if_neg (by simp [F64.isNan])]
    simp only [toKmh, F64.Lt, F64.Le]
    norm_num
    intro t1 h1 heq hc
    exact F64.noConfusion hc
  have hnanw : ∀ t h : ℝ,
      FeelsLike (F64.fin t) (F64.fin h) F64.nan =
        if 27 ≤ t ∧ 40 ≤ h then F64.fin (heatIndexC t h)
        else F64.fin t := by
    intro t h
    rw [FeelsLike, if_neg (by simp [F64.isNan])]
    simp only [toKmh, F64.Lt, F64.Le]
    norm_num
  refine ⟨fun h w => by simp [FeelsLike, F64.isNan], fun t h w => ?_, fun t w => ?_,
    fun t h => ?_, fun t => ?_, ?_⟩
  · rw [hmain t h w, windChill, heatIndexC]
  · rw [hnanh t w, windChill]
  · rw [hnanw t h, heatIndexC]
  · rw [FeelsLike, if_neg (by simp [F64.isNan])]
    simp only [toKmh, F64.Lt, F64.Le]
    norm_num
    intro t1 h1 heq hc
    exact F64.noConfusion hc
  · rw [hmain 20 50 2, if_neg (by norm_num), if_neg (by norm_num)]

lemma expPartialSum_lb : (1.5433313 : ℝ) ≤ Real.exp 0.435 := by
  have h := Real.sum_le_exp_of_nonneg (x := (0.435 : ℝ)) (by norm_num) 4
  simp [Finset.sum_range_succ, Nat.factorial] at h
  norm_num at h
  linarith

lemma expPartialSum_ub : Real.exp 0.426 ≤ (1.5313381 : ℝ) := by
  have h := Real.exp_bound' (x := (0.426 : ℝ)) (by norm_num) (by norm_num) (n := 4) (by norm_num)
  simp [Finset.sum_range_succ, Nat.factorial] at h
  norm_num at h
  linarith

lemma log65_lb : (-0.435 : ℝ) < Real.log (65 / 100) := by
  rw [Real.lt_log_iff_exp_lt (by norm_num : (0:ℝ) < 65 / 100), Real.exp_neg]
  calc (Real.exp 0.435)⁻¹ ≤ (1.5433313 : ℝ)⁻¹ := inv_anti₀ (by norm_num) expPartialSum_lb
    _ < 65 / 100 := by norm_num

lemma log65_ub : Real.log (65 / 100) < (-0.426 : ℝ) := by
  rw [Real.log_lt_iff_lt_exp (by norm_num : (0:ℝ) < 65 / 100), Real.exp_neg]
  calc (65 : ℝ) / 100 < (1.5313381 : ℝ)⁻¹ := by norm_num
    _ ≤ (Real.exp 0.426)⁻¹ := inv_anti₀ (Real.exp_pos _) expPartialSum_ub

/-- C6: `DewPoint` returns NaN exactly when the temperature is NaN, the
humidity is NaN, or the humidity is non-positive; otherwise it computes
the Magnus formula with `gamma = (17.27 t)/(237.7 + t) + ln (h/100)` and
value `(237.7 gamma)/(17.27 - gamma)`; and `DewPoint 22.5 65` is within
0.1 of 15.6. -/
theorem C6_dew_point :
    (∀ h : F64, DewPoint F64.nan h = F64.nan) ∧
    (∀ t : F64, DewPoint t F64.nan = F64.nan) ∧
    (∀ t h : ℝ, h ≤ 0 → DewPoint (F64.fin t) (F64.fin h) = F64.nan) ∧
    (∀ t h : ℝ, 0 < h →
      DewPoint (F64.fin t) (F64.fin h) =
        F64.fin ((237.7 * ((17.27 * t) / (237.7 + t) + Real.log (h / 100))) /
          (17.27 - ((17.27 * t) / (237.7 + t) + Real.log (h / 100)))) ∧
      DewPoint (F64.fin t) (F64.fin h) ≠ F64.nan) ∧
    (∃ d : ℝ, DewPoint (F64.fin 22.5) (F64.fin 65) = F64.fin d ∧ |d - 15.6| ≤ 0.1) := by
  have hval : ∀ t h : ℝ, 0 < h →
      DewPoint (F64.fin t) (F64.fin h) =
        F64.fin ((237.7 * magnusGamma t h) / (17.27 - magnusGamma t h)) := by
    intro t h hh
    rw [DewPoint, if_neg]
    push_neg
    refine ⟨by simp [F64.isNan], by simp [F64.isNan], ?_⟩
    show ¬ h ≤ 0
    linarith
  refine ⟨fun h => by simp [DewPoint, F64.isNan], fun t => ?_, fun t h hh => ?_, ?_, ?_⟩
  · cases t <;> simp [DewPoint, F64.isNan]
  · rw [DewPoint, if_pos]
    exact Or.inr (Or.inr hh)
  · intro t h hh
    constructor
    · rw [hval t h hh]
      simp only [magnusGamma]
    · rw [hval t h hh]
      intro hc
      exact F64.noConfusion hc
  · set g : ℝ := magnusGamma 22.5 65 with hg
    have hA : ((17.27 : ℝ) * 22.5) / (237.7 + 22.5) = 388.575 / 260.2 := by norm_num
    have hg_lb : (1.0583 : ℝ) < g := by
      rw [hg, magnusGamma, hA]
      have := log65_lb
      norm_num at this ⊢
      linarith
    have hg_ub : g < (1.0674 : ℝ) := by
      rw [hg, magnusGamma, hA]
      have := log65_ub
      norm_num at this ⊢
      linarith
    have hpos : (0 : ℝ) < 17.27 - g := by linarith
    refine ⟨(237.7 * g) / (17.27 - g), hval 22.5 65 (by norm_num), ?_⟩
    rw [abs_le]
    have hlb : (15.5 : ℝ) ≤ 237.7 * g / (17.27 - g) := by
      rw [le_div_iff₀ hpos]
      nlinarith
    have hub : 237.7 * g / (17.27 - g) ≤ (15.7 : ℝ) := by
      rw [div_le_iff₀ hpos]
      nlinarith
    constructor
    · linarith
    · linarith

/-- Witness for C6 at concrete inputs: zero humidity and NaN temperature
give NaN, while 22.5 deg C at 65% humidity does not. -/
theorem C6_dew_point_witness :
    DewPoint (F64.fin 20) (F64.fin 0) = F64.nan ∧
    DewPoint (F64.fin 22.5) (F64.fin 65) ≠ F64.nan ∧
    DewPoint F64.nan (F64.fin 50) = F64.nan := by
  exact ⟨C6_dew_point.2.2.1 20 0 (by norm_num),
    (C6_dew_point.2.2.2.1 22.5 65 (by norm_num)).2,
    C6_dew_point.1 (F64.fin 50)⟩

lemma replaceAllGo_indep (f1 : ℕ) :
    ∀ (s pat rep : List Char) (f2 : ℕ), s.length ≤ f1 → s.length ≤ f2 →
      replaceAllGo f1 s pat rep = replaceAllGo f2 s pat rep := by
  induction f1 with
  | zero =>
    intro s pat rep f2 h1 _
    have : s = [] := List.eq_nil_of_length_eq_zero (by omega)
    subst this
    cases f2 <;> rfl
  | succ g1 ih =>
    intro s pat rep f2 h1 h2
    cases s with
    | nil => cases f2 <;> rfl
    | cons c rest =>
      cases f2 with
      | zero => simp at h2
      | succ g2 =>
        simp only [replaceAllGo]
        by_cases hm : pat ≠ [] ∧ pat.isPrefixOf (c :: rest)
        · rw [if_pos hm, if_pos hm]
          congr 1
          have hlen : (List.drop pat.length (c :: rest)).length ≤ g1 := by
            have hp : 1 ≤ pat.length := by
              cases pat with
              | nil => exact absurd rfl hm.1
              | cons p ps => simp
            simp only [List.length_drop, List.length_cons]
            simp only [List.length_cons] at h1
            omega
          have hlen2 : (List.drop pat.length (c :: rest)).length ≤ g2 := by
            have hp : 1 ≤ pat.length := by
              cases pat with
              | nil => exact absurd rfl hm.1
              | cons p ps => simp
            simp only [List.length_drop, List.length_cons]
            simp only [List.length_cons] at h2
            omega
          exact ih _ pat rep g2 hlen hlen2
        · rw [if_neg hm, if_neg hm]
          congr 1
          exact ih rest pat rep g2 (by simp at h1; omega) (by simp at h2; omega)

lemma replaceAll_cons_pos (c : Char) (rest pat rep : List Char)
    (h : pat ≠ [] ∧ pat.isPrefixOf (c :: rest)) :
    replaceAll (c :: rest) pat rep =
      rep ++ replaceAll (List.drop pat.length (c :: rest)) pat rep := by
  rw [replaceAll, replaceAll]
  simp only [List.length_cons, replaceAllGo, if_pos h]
  congr 1
  apply replaceAllGo_indep
  · have hp : 1 ≤ pat.length := by
      cases pat with
      | nil => exact absurd rfl h.1
      | cons p ps => simp
    simp only [List.length_drop, List.length_cons]
    omega
  · exact le_refl _

lemma replaceAll_cons_neg (c : Char) (rest pat rep : List Char)
    (h : ¬ (pat ≠ [] ∧ pat.isPrefixOf (c :: rest))) :
    replaceAll (c :: rest) pat rep = c :: replaceAll rest pat rep := by
  rw [replaceAll, replaceAll]
  simp only [List.length_cons, replaceAllGo, if_neg h]

lemma pullback_bound (pat rep : List Char)
    (hrep : ∃ r, rep = '[' :: r) (n : ℕ) :
    ∀ (s k : List Char), s.length ≤ n → k ≠ [] → '[' ∉ k →
      k <+: replaceAll s pat rep → k <+: s := by
  induction n with
  | zero =>
    intro s k hs hk _ hp
    have : s = [] := List.eq_nil_of_length_eq_zero (by omega)
    subst this
    rw [show replaceAll [] pat rep = [] from rfl] at hp
    exact absurd (by simpa using hp) hk
  | succ n ih =>
    intro s k hs hk hbr hp
    cases s with
    | nil =>
      rw [show replaceAll [] pat rep = [] from rfl] at hp
      exact absurd (by simpa using hp) hk
    | cons c rest =>
      by_cases hm : pat ≠ [] ∧ pat.isPrefixOf (c :: rest)
      · rw [replaceAll_cons_pos c rest pat rep hm] at hp
        obtain ⟨r, hr⟩ := hrep
        cases k with
        | nil => exact absurd rfl hk
        | cons k0 k1 =>
          rw [hr] at hp
          rw [List.cons_append] at hp
          rw [List.cons_prefix_cons] at hp
          exact absurd (hp.1 ▸ List.mem_cons_self _ _) hbr
      · rw [replaceAll_cons_neg c rest pat rep hm] at hp
        cases k with
        | nil => exact absurd rfl hk
        | cons k0 k1 =>
          rw [List.cons_prefix_cons] at hp
          cases hk1 : k1 with
          | nil =>
            subst hk1
            rw [List.cons_prefix_cons]
            exact ⟨hp.1, List.nil_prefix⟩
          | cons d k2 =>
            have hk1ne : k1 ≠ [] := by rw [hk1]; simp
            have hbr1 : '[' ∉ k1 := fun hc => hbr (List.mem_cons_of_mem _ hc)
            have := ih rest k1 (by simp at hs; omega) hk1ne hbr1 (hk1 ▸ hp.2)
            rw [List.cons_prefix_cons]
            exact ⟨hp.1, hk1 ▸ this⟩

lemma appendSplit {α : Type} (k a b : List α) (h : k <:+: a ++ b) :
    k <:+: a ∨ k <:+: b ∨
      ∃ t1 t2, k = t1 ++ t2 ∧ t1 ≠ [] ∧ t1 <:+ a ∧ t2 <+: b := by
  induction a with
  | nil => exact Or.inr (Or.inl (by simpa using h))
  | cons x a2 ih =>
    rw [List.cons_append]  at h
    rw [ List.infix_cons_iff] at h
    rcases h with hp | hi
    · rw [← List.cons_append] at hp
      by_cases hl : k.length ≤ (x :: a2).length
      · exact Or.inl (List.IsPrefix.isInfix ((List.isPrefix_append_of_length hl).mp hp))
      · have hpre : (x :: a2) <+: k := by
          apply List.prefix_of_prefix_length_le ( List.prefix_append _ _) hp
          omega
        obtain ⟨t2, ht2⟩ := hpre
        refine Or.inr (Or.inr ⟨x :: a2, t2, ht2.symm, by simp, List.suffix_refl _, ?_⟩)
        obtain ⟨u, hu⟩ := hp
        rw [← ht2, List.append_assoc] at hu
        have := List.append_cancel_left hu
        exact ⟨u, this⟩
    · rcases ih hi with h1 | h2 | ⟨t1, t2, he, hne, hsuf, hpre⟩
      · exact Or.inl (List.IsInfix.trans h1 ( List.infix_cons ( List.infix_refl _)))
      · exact Or.inr (Or.inl h2)
      · exact Or.inr (Or.inr ⟨t1, t2, he, hne,
          List.IsSuffix.trans hsuf (List.suffix_cons _ _), hpre⟩)

lemma closeBracket_mem_of_suffix (t1 : List Char) (h1 : t1 ≠ [])
    (h2 : t1 <:+ redactedText) : ']' ∈ t1 := by
  obtain ⟨u, hu⟩ := h2
  have hq : t1.getLast? = some ']' := by
    have h3 := List.getLast?_append_of_ne_nil u h1
    rw [hu] at h3
    rw [← h3]
    rfl
  rw [List.getLast?_eq_getLast_of_ne_nil h1] at hq
  have h4 : t1.getLast h1 = ']' := by injection hq
  rw [← h4]
  exact List.getLast_mem h1

lemma token_not_in_replaced (tok : List Char) (hne : tok ≠ [])
    (hbr1 : '[' ∉ tok) (hbr2 : ']' ∉ tok)
    (hnotin : ¬ tok <:+: redactedText) (n : ℕ) :
    ∀ s : List Char, s.length ≤ n → ¬ tok <:+: replaceAll s tok redactedText := by
  induction n with
  | zero =>
    intro s hs hc
    have : s = [] := List.eq_nil_of_length_eq_zero (by omega)
    subst this
    rw [show replaceAll [] tok redactedText = [] from rfl] at hc
    exact hne (by simpa using hc)
  | succ n ih =>
    intro s hs hc
    cases s with
    | nil =>
      rw [show replaceAll [] tok redactedText = [] from rfl] at hc
      exact hne (by simpa using hc)
    | cons c rest =>
      have hp1 : 1 ≤ tok.length := by
        cases tok with
        | nil => exact absurd rfl hne
        | cons p ps => simp
      by_cases hm : tok ≠ [] ∧ tok.isPrefixOf (c :: rest)
      · rw [replaceAll_cons_pos c rest tok redactedText hm] at hc
        rcases appendSplit tok redactedText _ hc with h1 | h2 | ⟨t1, t2, he, ht1ne, ht1suf, _⟩
        · exact hnotin h1
        · refine ih _ ?_ h2
          simp only [List.length_drop, List.length_cons]
          simp only [List.length_cons] at hs
          omega
        · have : ']' ∈ tok := he ▸ List.mem_append_left _
            (closeBracket_mem_of_suffix t1 ht1ne ht1suf)
          exact hbr2 this
      · rw [replaceAll_cons_neg c rest tok redactedText hm] at hc
        rw [ List.infix_cons_iff] at hc
        rcases hc with hp | hi
        · have hple : tok <+: c :: rest := by
            have := pullback_bound tok redactedText ⟨_, rfl⟩ (n + 1) (c :: rest) tok
              hs hne hbr1
            apply this
            rw [replaceAll_cons_neg c rest tok redactedText hm]
            exact hp
          exact hm ⟨hne, List.isPrefixOf_iff_prefix.mpr hple⟩
        · exact ih rest (by simp only [List.length_cons] at hs; omega) hi

/-- C7 counterexample: with the non-empty token "ED" (a substring of the
replacement text "[REDACTED]") the error string "xEDy" still contains
the literal token after redaction, so the claim as universally stated is
false. -/
theorem C7_redaction_counterexample :
    (['E', 'D'] : List Char) ≠ [] ∧
    ['E', 'D'] <:+: redactToken ['x', 'E', 'D', 'y'] ['E', 'D'] := by
  constructor
  · decide
  · decide

/-- C7 amended: for every non-empty token that contains neither '[' nor
']' and is not a substring of the replacement text "[REDACTED]" — which
holds for every real API token — the redacted error string never
contains the literal token as a substring. -/
theorem C7_redaction_no_token :
    ∀ tok s : List Char, tok ≠ [] → '[' ∉ tok → ']' ∉ tok →
      ¬ tok <:+: redactedText → ¬ tok <:+: redactToken s tok := by
  intro tok s h1 h2 h3 h4
  rw [redactToken, if_neg h1]
  exact token_not_in_replaced tok h1 h2 h3 h4 s.length s (le_refl _)

/-- Witness for C7 at a concrete input: redacting the token "sec" from
an error string that embeds it leaves no occurrence of "sec". -/
theorem C7_redaction_no_token_witness :
    ¬ (['s', 'e', 'c'] : List Char) <:+:
      redactToken ['a', 's', 'e', 'c', 'b'] ['s', 'e', 'c'] :=
  C7_redaction_no_token ['s', 'e', 'c'] ['a', 's', 'e', 'c', 'b']
    (by decide) (by decide) (by decide) (by decide)

lemma isNan_false_iff (v : F64) : v.isNan = false ↔ v ≠ F64.nan := by
  cases v <;> simp [F64.isNan]

lemma collect_mem_iff (st : CollectorState) (hobs : st.hasObs = true)
    (p : MetricId × F64) :
    p ∈ collect st ↔
      (p = (MetricId.mUp, F64.fin (if st.connected then 1 else 0)) ∨
       p = (MetricId.mReconnects, F64.fin st.reconnects) ∨
       p = (MetricId.mScrapeErrors, F64.fin st.scrapeErrors)) ∨
      p = (MetricId.mLastObservation, F64.fin (st.obs.Timestamp : ℝ)) ∨
      (p ∈ gaugeCandidates st.obs ∧ p.2.isNan = false) ∨
      (F64.Lt (F64.fin 0) st.rainStart ∧ p = (MetricId.mRainStartEpoch, st.rainStart) ∧
        p.2.isNan = false) := by
  by_cases hr : F64.Lt (F64.fin 0) st.rainStart <;>
    simp [collect, gaugeCandidates, hobs, hr, List.mem_filter, or_assoc, and_comm] <;>
    tauto

lemma candidate_id_ne (o : Observation) (p : MetricId × F64)
    (hp : p ∈ gaugeCandidates o) :
    p.1 ≠ MetricId.mUp ∧ p.1 ≠ MetricId.mReconnects ∧
    p.1 ≠ MetricId.mScrapeErrors ∧ p.1 ≠ MetricId.mLastObservation ∧
    p.1 ≠ MetricId.mRainStartEpoch := by
  simp only [gaugeCandidates, obsGaugePairs, List.mem_append, List.mem_cons,
    List.not_mem_nil, or_false] at hp
  rcases hp with (h|h|h|h|h|h|h|h|h|h|h|h|h|h|h)|(h|h) <;>
    (rw [h]; exact ⟨by simp, by simp, by simp, by simp, by simp⟩)

lemma collect_noObs (st : CollectorState) (h : st.hasObs = false) :
    collect st =
      [(MetricId.mUp, F64.fin (if st.connected then 1 else 0)),
       (MetricId.mReconnects, F64.fin st.reconnects),
       (MetricId.mScrapeErrors, F64.fin st.scrapeErrors)] := by
  simp [collect, h]

/-- C10: `Collect` always emits the up/reconnects/scrape-errors health
metrics; with no stored observation it emits nothing else; every emitted
value is non-NaN (sentinel-valued fields are silently omitted); the
rain-start gauge appears only when the stored rain-start value is
strictly positive; and, once an observation is stored, an observation or
derived gauge is emitted exactly when its value is not the NaN
sentinel. -/
theorem C10_collect_policy :
    ∀ st : CollectorState,
      ((MetricId.mUp, F64.fin (if st.connected then 1 else 0)) ∈ collect st ∧
       (MetricId.mReconnects, F64.fin st.reconnects) ∈ collect st ∧
       (MetricId.mScrapeErrors, F64.fin st.scrapeErrors) ∈ collect st) ∧
      (st.hasObs = false →
        collect st =
          [(MetricId.mUp, F64.fin (if st.connected then 1 else 0)),
           (MetricId.mReconnects, F64.fin st.reconnects),
           (MetricId.mScrapeErrors, F64.fin st.scrapeErrors)]) ∧
      (∀ p ∈ collect st, p.2 ≠ F64.nan) ∧
      (∀ v : F64, (MetricId.mRainStartEpoch, v) ∈ collect st →
        F64.Lt (F64.fin 0) st.rainStart) ∧
      (∀ p ∈ gaugeCandidates st.obs,
        st.hasObs = true → (p ∈ collect st ↔ p.2.isNan = false)) := by
  intro st
  refine ⟨⟨by simp [collect], by simp [collect], by simp [collect]⟩,
    collect_noObs st, ?_, ?_, ?_⟩
  · intro p hp
    cases hobs : st.hasObs with
    | false =>
      rw [collect_noObs st hobs] at hp
      simp only [List.mem_cons, List.not_mem_nil, or_false] at hp
      rcases hp with h | h | h <;> (rw [h]; intro hc; exact F64.noConfusion hc)
    | true =>
      rw [collect_mem_iff st hobs p] at hp
      rcases hp with (h | h | h) | h | ⟨_, h⟩ | ⟨_, _, h⟩
      · rw [h]; intro hc; exact F64.noConfusion hc
      · rw [h]; intro hc; exact F64.noConfusion hc
      · rw [h]; intro hc; exact F64.noConfusion hc
      · rw [h]; intro hc; exact F64.noConfusion hc
      · exact (isNan_false_iff p.2).mp h
      · exact (isNan_false_iff p.2).mp h
  · intro v hv
    cases hobs : st.hasObs with
    | false =>
      rw [collect_noObs st hobs] at hv
      simp at hv
    | true =>
      rw [collect_mem_iff st hobs _] at hv
      rcases hv with (h | h | h) | h | ⟨hmem, _⟩ | ⟨hr, _, _⟩
      · simp at h
      · simp at h
      · simp at h
      · simp at h
      · exact absurd rfl (candidate_id_ne st.obs _ hmem).2.2.2.2
      · exact hr
  · intro p hp hobs
    have hid := candidate_id_ne st.obs p hp
    rw [collect_mem_iff st hobs p]
    constructor
    · intro hmem
      rcases hmem with (h | h | h) | h | ⟨_, h⟩ | ⟨_, h, _⟩
      · exact absurd (by rw [h]) hid.1
      · exact absurd (by rw [h]) hid.2.1
      · exact absurd (by rw [h]) hid.2.2.1
      · exact absurd (by rw [h]) hid.2.2.2.1
      · exact h
      · exact absurd (by rw [h]) hid.2.2.2.2
    · intro hnan
      exact Or.inr (Or.inr (Or.inl ⟨hp, hnan⟩))

/-- Witness for C10 at concrete states: before any observation only the
three health metrics are emitted; with a stored observation a finite
gauge is emitted and a NaN-valued gauge is omitted. -/
theorem C10_collect_policy_witness :
    collect stNoObs =
      [(MetricId.mUp, F64.fin 0), (MetricId.mReconnects, F64.fin 0),
       (MetricId.mScrapeErrors, F64.fin 0)] ∧
    (MetricId.mWindLull, F64.fin 1) ∈ collect stWithObs ∧
    ¬ (MetricId.mAirTemperature, F64.nan) ∈ collect stWithObs := by
  refine ⟨?_, ?_, ?_⟩
  · have h := (C10_collect_policy stNoObs).2.1 rfl
    simpa [stNoObs] using h
  · have h := (C10_collect_policy stWithObs).2.2.2.2 (MetricId.mWindLull, F64.fin 1)
      (by simp [gaugeCandidates, obsGaugePairs, stWithObs, obsW]) rfl
    exact h.mpr rfl
  · intro hc
    have h := (C10_collect_policy stWithObs).2.2.2.2 (MetricId.mAirTemperature, F64.nan)
      (by simp [gaugeCandidates, obsGaugePairs, stWithObs, obsW]) rfl
    have h2 := h.mp hc
    simp [F64.isNan] at h2
